import Mathlib

/-!
Shallow embedding of `main.py` of the pdfs-manga-to-ebook repository.

The program converts a directory of per-chapter PDF files into one
image-based EPUB.  We model, faithfully to the source:

* the Python string operations it uses (`str.replace` with an empty
  replacement, `str.strip`, decimal formatting of an `int`,
  `re.search` for the first run of decimal digits, `str.endswith`);
* `ChapterData` (chapter-number parsing and page-id generation),
  `create_chapter`, the `EbookXMLManager` manifest / spine / NCX
  construction, `EbookManager` (chapter discovery, sorting, the zip
  entry sequence of `create_ebook`), and the `start` / config driver.

PDF rasterization is an external collaborator (`pdf2image`); it is
modelled as a function from a file path to either an error or a list of
abstract page images.  PNG re-encoding of an abstract image is modelled
as the identity.  Zip entries record path, compression kind and a
structural description of the written content.
-/

/-! ### Python string primitives -/

/-- Decimal digit to character, as Python's `str(int)` produces
(mirrors the relevant cases of `Nat.digitChar`). -/
def digitChar (d : Nat) : Char :=
  if d = 0 then '0' else if d = 1 then '1' else if d = 2 then '2'
  else if d = 3 then '3' else if d = 4 then '4' else if d = 5 then '5'
  else if d = 6 then '6' else if d = 7 then '7' else if d = 8 then '8'
  else if d = 9 then '9' else '*'

/-- Fuel-indexed digit-list builder; `fuel` bounds the recursion depth so
the definition is structurally recursive (any `fuel > n` is enough). -/
def natDigitsAux : Nat → Nat → List Char
  | 0, _ => []
  | fuel + 1, n =>
    if n < 10 then [digitChar n]
    else natDigitsAux fuel (n / 10) ++ [digitChar (n % 10)]

/-- The decimal digits of `n`, most significant first: the characters of
Python's `str(n)` for a non-negative `int`. -/
def natDigits (n : Nat) : List Char := natDigitsAux (n + 1) n

/-- Python's `str(n)` for a non-negative integer `n`. -/
def decimalRepr (n : Nat) : String := ⟨natDigits n⟩

/-- Fuel-indexed model of Python `str.replace(sub, "")`: scan left to
right, deleting each non-overlapping occurrence of `sub`.  `fuel` bounds
the number of scan steps; `fuel = length of the list` is enough since
every step consumes at least one character. -/
def replaceDelAux (sub : List Char) : Nat → List Char → List Char
  | 0, s => s
  | _ + 1, [] => []
  | fuel + 1, c :: rest =>
    if sub ≠ [] ∧ sub.isPrefixOf (c :: rest) then
      replaceDelAux sub fuel (rest.drop (sub.length - 1))
    else
      c :: replaceDelAux sub fuel rest

/-- Python `s.replace(sub, "")` on character lists. -/
def replaceDel (sub s : List Char) : List Char := replaceDelAux sub s.length s

/-- Python `s.replace(sub, "")` on strings. -/
def pyReplaceDel (s sub : String) : String := ⟨replaceDel sub.data s.data⟩

/-- Python `s.strip()`: remove leading and trailing whitespace. -/
def stripChars (l : List Char) : List Char :=
  ((l.dropWhile Char.isWhitespace).reverse.dropWhile Char.isWhitespace).reverse

/-- Python `s.strip()` on strings. -/
def pyStrip (s : String) : String := ⟨stripChars s.data⟩

/-- Numeric value of a digit character list, as Python `int` on a digit
string (leading zeros allowed). -/
def digitsToNat (ds : List Char) : Nat :=
  ds.foldl (fun a c => 10 * a + (c.toNat - 48)) 0

/-- The first maximal run of decimal digits in the list:
`re.search(r"\d+", s).group()` (`none` when there is no digit, in which
case Python's `.group()` call raises `AttributeError`). -/
def firstDigitRun : List Char → Option (List Char)
  | [] => none
  | c :: rest =>
    if c.isDigit then some (c :: rest.takeWhile Char.isDigit)
    else firstDigitRun rest

/-- `int(re.search(r"\d+", s).group())`, `none` when no digit occurs. -/
def firstNat (s : List Char) : Option Nat :=
  (firstDigitRun s).map digitsToNat

/-- Python `s.endswith(suffix)`. -/
def pyEndsWith (s suffix : String) : Bool :=
  suffix.data.isSuffixOf s.data

/-! ### Data model -/

/-- Abstract raster page image (contents irrelevant to the claims). -/
abbrev Img := Nat

/-- Failure of the rasterization collaborator (`pdf2image` raising). -/
inductive RastFail where
  | rastFail
  deriving DecidableEq

deriving instance DecidableEq for Except

/-- The rasterization collaborator `convert_from_path`: a PDF path to an
ordered list of page images, or a failure. -/
abbrev Renderer := String → Except RastFail (List Img)

/-- `ChapterData.create_png_img`: PNG re-encoding of a raster image,
abstracted as the identity on abstract images. -/
def create_png_img (img : Img) : Img := img

/-- The `ManifestItem` dataclass. -/
structure ManifestItem where
  id : String
  href : String
  media_type : String
  deriving DecidableEq

/-- The `ChapterTOC` dataclass. -/
structure ChapterTOC where
  page_ids : List String
  chapter_title : String
  deriving DecidableEq

/-- One `navPoint` of the NCX navigation document. -/
structure NavPoint where
  navId : String
  playOrder : Nat
  label : String
  src : String
  deriving DecidableEq

/-- `ChapterData.__init__` fields: file name, full path and the chapter
number parsed from the name (`chapter_title` is derived below). -/
structure ChapterData where
  name : String
  path : String
  chapter_number : Nat
  deriving DecidableEq

/-- The chapter-number parse of `ChapterData.__init__`:
`int(re.search(r"\d+", name.replace("Ch", "").replace(".pdf", "").strip()).group())`;
`none` models the uncaught `AttributeError` when no digit remains. -/
def parseChapterNumber (name : String) : Option Nat :=
  firstNat (pyStrip (pyReplaceDel (pyReplaceDel name "Ch") ".pdf")).data

/-- `ChapterData(name, path)`: `none` when the chapter number cannot be
parsed (the constructor raises). -/
def mkChapterData (name path : String) : Option ChapterData :=
  (parseChapterNumber name).map fun n => ⟨name, path, n⟩

/-- `self.chapter_title = f"Chapter {self.chapter_number}"`. -/
def ChapterData.chapter_title (cd : ChapterData) : String :=
  "Chapter " ++ decimalRepr cd.chapter_number

/-- The page id `f"chapter_{chapter_number}_page_{page_number}".replace(" ", "")`. -/
def pageIdStr (chapterNumber pageNumber : Nat) : String :=
  pyReplaceDel
    ("chapter_" ++ decimalRepr chapterNumber ++ "_page_" ++ decimalRepr pageNumber)
    " "

/-! ### Zip entries -/

/-- Zip compression kind: `zipfile.ZIP_STORED` / `zipfile.ZIP_DEFLATED`. -/
inductive Compress where
  | stored
  | deflated
  deriving DecidableEq

/-- Structural description of a zip entry's content. -/
inductive EntryContent where
  /-- the `mimetype` entry body `application/epub+zip` -/
  | mimetypeBody
  /-- the fixed `CONTAINER_XML` text -/
  | containerXml
  /-- a page XHTML document from `HTML_PAGE_TEMPLATE`, determined by the
  chapter title, the page number and the image url -/
  | xhtmlPage (chapterTitle : String) (pageNumber : Nat) (imageUrl : String)
  /-- a PNG-encoded page image -/
  | pageImage (img : Img)
  /-- the serialized package document with its manifest and spine -/
  | opfDoc (manifest : List ManifestItem) (spine : List String)
  /-- the serialized NCX document with its navPoints -/
  | ncxDoc (navPoints : List NavPoint)
  deriving DecidableEq

/-- One entry written to the output zip, in write order. -/
structure ZipEntry where
  path : String
  compress : Compress
  content : EntryContent
  deriving DecidableEq

/-- The page document manifest item (`media_type` is the dataclass
default `application/xhtml+xml`). -/
def pageDocItem (page_id : String) : ManifestItem :=
  ⟨page_id, page_id ++ ".xhtml", "application/xhtml+xml"⟩

/-- The paired image manifest item. -/
def pageImgItem (page_id : String) : ManifestItem :=
  ⟨page_id ++ "_img", "static/" ++ page_id ++ ".png", "image/png"⟩

/-- The zip entry of a page's XHTML document. -/
def pageXhtmlEntry (chapterTitle : String) (pageNumber : Nat) (page_id : String) : ZipEntry :=
  ⟨"OEBPS/" ++ page_id ++ ".xhtml", Compress.deflated,
    EntryContent.xhtmlPage chapterTitle pageNumber ("static/" ++ page_id ++ ".png")⟩

/-- The zip entry of a page's PNG image. -/
def pageImageEntry (page_id : String) (img : Img) : ZipEntry :=
  ⟨"OEBPS/static/" ++ page_id ++ ".png", Compress.deflated,
    EntryContent.pageImage (create_png_img img)⟩

/-- `ChapterData.create_chapter`: rasterize the chapter's PDF, and for
each page (1-based) emit the XHTML zip entry followed by the image zip
entry, the two manifest items (document, then image) and the page id.
The Python `for index, image in enumerate(images)` loop appends to the
result lists one page at a time, which is the per-page concatenation
below. -/
def create_chapter (render : Renderer) (cd : ChapterData) :
    Except RastFail (List ZipEntry × List ManifestItem × List String) :=
  match render cd.path with
  | Except.error e => Except.error e
  | Except.ok images =>
    Except.ok
      (images.enum.flatMap fun p =>
        [pageXhtmlEntry cd.chapter_title (p.1 + 1) (pageIdStr cd.chapter_number (p.1 + 1)),
         pageImageEntry (pageIdStr cd.chapter_number (p.1 + 1)) p.2],
       images.enum.flatMap fun p =>
        [pageDocItem (pageIdStr cd.chapter_number (p.1 + 1)),
         pageImgItem (pageIdStr cd.chapter_number (p.1 + 1))],
       images.enum.map fun p => pageIdStr cd.chapter_number (p.1 + 1))

/-! ### EbookXMLManager -/

/-- The fixed navigation-document manifest entry added first by
`build_manifest_data`. -/
def ncxItem : ManifestItem := ⟨"ncx", "toc.ncx", "application/x-dtbncx+xml"⟩

/-- The manifest of the finalized package document produced by
`build_manifest_data`: the fixed ncx entry followed by every accumulated
manifest item, in order.  (Serialization to XML text is not modelled;
the spine itemrefs are the accumulated spine ids unchanged.) -/
def finalManifest (manifest_items : List ManifestItem) : List ManifestItem :=
  ncxItem :: manifest_items

/-- The navPoint loop of `build_ncx_data`, carrying the running
`chapter_index` (the `play_order` counter always equals
`chapter_index + 1`).  `none` models the uncaught `IndexError` of
`chapter_toc.page_ids[0]` on a chapter with no pages. -/
def build_ncx_list : Nat → List ChapterTOC → Option (List NavPoint)
  | _, [] => some []
  | i, ct :: rest =>
    match ct.page_ids.head? with
    | none => none
    | some fp =>
      match build_ncx_list (i + 1) rest with
      | none => none
      | some nps =>
        some (⟨"navPoint-" ++ decimalRepr (i + 1), i + 1, ct.chapter_title,
               fp ++ ".xhtml"⟩ :: nps)

/-- `EbookXMLManager.build_ncx_data`: the navPoints of the finalized NCX
document, `none` when a chapter's page-id list is empty. -/
def build_ncx_data (toc : List ChapterTOC) : Option (List NavPoint) :=
  build_ncx_list 0 toc

/-! ### EbookManager -/

/-- The per-book accumulators of `EbookManager` plus the zip entries
written so far. -/
structure EbookState where
  spine : List String
  toc : List ChapterTOC
  manifest_items : List ManifestItem
  entries : List ZipEntry
  deriving DecidableEq

/-- The accumulators right after `EbookManager.__init__`. -/
def initState : EbookState := ⟨[], [], [], []⟩

/-- `EbookManager.handle_chapter`: run `create_chapter` and append its
manifest items, page ids (spine) and the chapter TOC entry. -/
def handle_chapter (render : Renderer) (st : EbookState) (cd : ChapterData) :
    Except RastFail EbookState :=
  match create_chapter render cd with
  | Except.error e => Except.error e
  | Except.ok (entries, items, ids) =>
    Except.ok
      ⟨st.spine ++ ids,
       st.toc ++ [⟨ids, cd.chapter_title⟩],
       st.manifest_items ++ items,
       st.entries ++ entries⟩

/-- The `for chapter in self.pdf_files` loop of `create_ebook`: process
chapters in order; an exception aborts immediately. -/
def runChapters (render : Renderer) : EbookState → List ChapterData → Except RastFail EbookState
  | st, [] => Except.ok st
  | st, cd :: rest =>
    match handle_chapter render st cd with
    | Except.error e => Except.error e
    | Except.ok st2 => runChapters render st2 rest

/-- `EbookManager.chapter_sorting`: `int(re.search(r"\d+", value.name).group())`,
the first run of digits of the raw file name.  On every `ChapterData`
built by `init_pdf_list` the search succeeds (the parsed name is a
character subsequence of the raw name), so the `getD` default is never
reached there. -/
def chapter_sorting (cd : ChapterData) : Nat :=
  (firstNat cd.name.data).getD 0

/-- The sort relation of `sorted(pdf_files, key=self.chapter_sorting)`;
Python's sort is stable, as is `List.insertionSort` with this
non-strict relation. -/
def chapterLE (a b : ChapterData) : Prop :=
  chapter_sorting a ≤ chapter_sorting b

instance : DecidableRel chapterLE := fun a b => Nat.decLe _ _

instance : IsTotal ChapterData chapterLE :=
  ⟨fun a b => Nat.le_total (chapter_sorting a) (chapter_sorting b)⟩

instance : IsTrans ChapterData chapterLE :=
  ⟨fun _ _ _ h1 h2 => Nat.le_trans h1 h2⟩

/-- `EbookManager.init_pdf_list`: keep the `.pdf` entries of the
directory listing (in listing order), build a `ChapterData` for each
(`none` when a chapter number cannot be parsed — the constructor
raises), then sort by `chapter_sorting`.  `os.path.join` is modelled by
inserting a single separator. -/
def init_pdf_list (pdfs_path : String) (listing : List String) :
    Option (List ChapterData) :=
  ((listing.filter fun f => pyEndsWith f ".pdf").mapM fun f =>
      mkChapterData f (pdfs_path ++ "/" ++ f)).map fun chapters =>
    List.insertionSort chapterLE chapters

/-- State of the `{name}.epub` output file after a build attempt. -/
inductive FileState where
  /-- no file of that name exists -/
  | absent
  /-- a fully written container, closed after a successful build -/
  | complete (entries : List ZipEntry)
  /-- the container as closed by `with` after an exception escaped the
  build: only the entries written before the failure -/
  | halfWritten (entries : List ZipEntry)
  deriving DecidableEq

/-- Outcome of `EbookManager(...)` + `create_ebook()` for one book. -/
inductive BuildOutcome where
  /-- the build completed -/
  | okB
  /-- `AttributeError` parsing a chapter number in `__init__` -/
  | parseFail
  /-- `convert_from_path` raised inside the `with` block -/
  | rasterFail
  /-- `IndexError` in `build_ncx_data` on a chapter with zero pages -/
  | navFail
  deriving DecidableEq

/-- Result of one book build: the outcome, and the state of the
`{name}.epub` file afterwards (given its prior state). -/
structure BuildResult where
  outcome : BuildOutcome
  file : FileState
  deriving DecidableEq

/-- The fixed first zip entry written by `add_mime_type`
(`ZIP_STORED`, i.e. uncompressed). -/
def mimetypeEntry : ZipEntry := ⟨"mimetype", Compress.stored, EntryContent.mimetypeBody⟩

/-- The `META-INF/container.xml` entry written by `add_container`
(no explicit `compress_type`: the archive default, `ZIP_STORED`). -/
def containerEntry : ZipEntry :=
  ⟨"META-INF/container.xml", Compress.stored, EntryContent.containerXml⟩

/-- The `OEBPS/content.opf` entry written by `add_manifest`. -/
def opfEntry (manifest : List ManifestItem) (spine : List String) : ZipEntry :=
  ⟨"OEBPS/content.opf", Compress.deflated, EntryContent.opfDoc manifest spine⟩

/-- The `OEBPS/toc.ncx` entry written by `add_navigation`. -/
def ncxEntry (navPoints : List NavPoint) : ZipEntry :=
  ⟨"OEBPS/toc.ncx", Compress.deflated, EntryContent.ncxDoc navPoints⟩

/-- `EbookManager(name, path)` followed by `create_ebook()`.

`init_pdf_list` runs in `__init__`, before the output zip is opened: a
chapter-number parse failure leaves the prior file untouched.
`zipfile.ZipFile(output_name, "w")` truncates the output on open; an
exception escaping the `with` body still closes the archive, leaving a
half-written container of the entries written so far.  On success the
entry order is: `mimetype`, `META-INF/container.xml`, each chapter's
pages (document then image, chapters in sorted order), then
`OEBPS/content.opf` and `OEBPS/toc.ncx` (`build` computes the NCX data
first but writes the package document first). -/
def create_ebook (render : Renderer) (pdfs_path : String) (listing : List String)
    (prior : FileState) : BuildResult :=
  match init_pdf_list pdfs_path listing with
  | none => ⟨BuildOutcome.parseFail, prior⟩
  | some chapters =>
    let opened := [mimetypeEntry, containerEntry]
    match runChapters render initState chapters with
    | Except.error _ =>
      -- entries written before the failing chapter are recoverable from
      -- the longest successful prefix of the chapter list
      match runChaptersPrefix render initState chapters with
      | st => ⟨BuildOutcome.rasterFail, FileState.halfWritten (opened ++ st.entries)⟩
    | Except.ok st =>
      match build_ncx_data st.toc with
      | none => ⟨BuildOutcome.navFail, FileState.halfWritten (opened ++ st.entries)⟩
      | some nps =>
        ⟨BuildOutcome.okB,
         FileState.complete
           (opened ++ st.entries ++
            [opfEntry (finalManifest st.manifest_items) st.spine, ncxEntry nps])⟩
where
  /-- the accumulated state after the longest prefix of chapters that
  processes without an exception -/
  runChaptersPrefix (render : Renderer) : EbookState → List ChapterData → EbookState
    | st, [] => st
    | st, cd :: rest =>
      match handle_chapter render st cd with
      | Except.error _ => st
      | Except.ok st2 => runChaptersPrefix render st2 rest

/-! ### Configuration and the `start` driver -/

/-- One configured book: its name and the optional `path` value
(`none` when the `path` key is absent or empty). -/
structure BookCfg where
  name : String
  path : Option String
  deriving DecidableEq

/-- The parsed `config.yaml`: the optional `ebooks` section
(`none` when the key is absent; `some []` when present but empty —
both are falsy in Python). -/
structure RawConfig where
  ebooks : Option (List BookCfg)

/-- The fatal startup exceptions raised by `get_config_file`. -/
inductive StartFail where
  /-- `Exception("Can't load config")` -/
  | cantLoadConfig
  /-- `Exception("Can't find ebooks section data")` -/
  | noEbooksSection
  deriving DecidableEq

/-- `get_config_file`: the whole-config argument is `none` when the YAML
file parses to a falsy value (`None` or empty mapping). -/
def get_config_file (cfg : Option RawConfig) : Except StartFail (List BookCfg) :=
  match cfg with
  | none => Except.error StartFail.cantLoadConfig
  | some c =>
    match c.ebooks with
    | none => Except.error StartFail.noEbooksSection
    | some [] => Except.error StartFail.noEbooksSection
    | some books => Except.ok books

/-- The observable environment of a run: which paths exist on disk
(`os.path.exists`, after `os.path.abspath`, modelled as the identity),
the directory listing of each path (`os.listdir`), and the
rasterization collaborator. -/
structure World where
  existingPaths : List String
  listings : String → List String
  render : Renderer

/-- On-disk output files, keyed by file name. -/
abbrev FileMap := List (String × FileState)

/-- The state of the output file `name` (`FileState.absent` when no
entry is recorded). -/
def lookupFile (files : FileMap) (name : String) : FileState :=
  match files.find? fun p => p.1 = name with
  | none => FileState.absent
  | some p => p.2

/-- Overwrite (or create) the record of output file `name`. -/
def updateFile (files : FileMap) (name : String) (st : FileState) : FileMap :=
  (name, st) :: files.filter fun p => ¬ p.1 = name

/-- Per-book outcome of the `start` loop. -/
inductive BookOutcome where
  /-- `skipping {name}, path is missing` -/
  | skippedNoPath (name : String)
  /-- `skipping {name}, path doesn't exists` -/
  | skippedMissing (name : String)
  /-- `create_ebook` completed -/
  | built (name : String)
  deriving DecidableEq

/-- An exception escaping one book's build; `start` has no handler, so
it aborts the whole run. -/
structure RunCrash where
  bookName : String
  err : BuildOutcome
  deriving DecidableEq

/-- One iteration of the `for name, ebook_def in ...` loop of `start`:
skip when the path is absent or does not exist, otherwise build the
book, recording the output-file change. -/
def processBook (w : World) (files : FileMap) (b : BookCfg) :
    (BookOutcome ⊕ RunCrash) × FileMap :=
  match b.path with
  | none => (Sum.inl (BookOutcome.skippedNoPath b.name), files)
  | some p =>
    if w.existingPaths.contains p then
      let r := create_ebook w.render p (w.listings p) (lookupFile files (b.name ++ ".epub"))
      match r.outcome with
      | BuildOutcome.okB =>
        (Sum.inl (BookOutcome.built b.name), updateFile files (b.name ++ ".epub") r.file)
      | e => (Sum.inr ⟨b.name, e⟩, updateFile files (b.name ++ ".epub") r.file)
    else
      (Sum.inl (BookOutcome.skippedMissing b.name), files)

/-- The book loop of `start`: process books in configuration order; an
uncaught exception stops the run immediately (later books are not
processed). -/
def runBooks (w : World) : FileMap → List BookCfg → List BookOutcome × FileMap × Option RunCrash
  | files, [] => ([], files, none)
  | files, b :: rest =>
    match processBook w files b with
    | (Sum.inl o, files2) =>
      match runBooks w files2 rest with
      | (os, files3, crash) => (o :: os, files3, crash)
    | (Sum.inr crash, files2) => ([], files2, some crash)

/-- `start()`: load the configuration (a falsy config or a missing /
empty `ebooks` section raises before any book is processed), then run
the book loop. -/
def start (cfg : Option RawConfig) (w : World) (files : FileMap) :
    Except StartFail (List BookOutcome × FileMap × Option RunCrash) :=
  match get_config_file cfg with
  | Except.error e => Except.error e
  | Except.ok books => Except.ok (runBooks w files books)

/-! ### Closed forms of the chapter pipeline -/

/-- The pages `convert_from_path` yields for a chapter (empty on a
rasterization failure, in which case `create_chapter` raises before
using them). -/
def renderedPages (render : Renderer) (cd : ChapterData) : List Img :=
  match render cd.path with
  | Except.ok images => images
  | Except.error _ => []

/-- Number of pages rasterized for a chapter. -/
def numPages (render : Renderer) (cd : ChapterData) : Nat :=
  (renderedPages render cd).length

/-- The page ids a chapter contributes, in page order `1 .. numPages`. -/
def chapterPageIds (render : Renderer) (cd : ChapterData) : List String :=
  (List.range (numPages render cd)).map fun i => pageIdStr cd.chapter_number (i + 1)

/-- The manifest items a chapter contributes: document then image item
per page, in page order. -/
def chapterItems (render : Renderer) (cd : ChapterData) : List ManifestItem :=
  (List.range (numPages render cd)).flatMap fun i =>
    [pageDocItem (pageIdStr cd.chapter_number (i + 1)),
     pageImgItem (pageIdStr cd.chapter_number (i + 1))]

/-- The zip entries a chapter contributes: document then image entry per
page, in page order. -/
def chapterEntries (render : Renderer) (cd : ChapterData) : List ZipEntry :=
  (renderedPages render cd).enum.flatMap fun p =>
    [pageXhtmlEntry cd.chapter_title (p.1 + 1) (pageIdStr cd.chapter_number (p.1 + 1)),
     pageImageEntry (pageIdStr cd.chapter_number (p.1 + 1)) p.2]

/-! ### Uniqueness of manifest and spine ids -/

/-- The manifest ids a chapter contributes: page id and image id per
page. -/
def idsOfChapter (render : Renderer) (cd : ChapterData) : List String :=
  (List.range (numPages render cd)).flatMap fun i =>
    [pageIdStr cd.chapter_number (i + 1), pageIdStr cd.chapter_number (i + 1) ++ "_img"]

/-! ### Concrete test fixtures -/

/-- A concrete rasterizer: `b/Ch1.pdf` has two pages, `b/Ch2.pdf` has
three pages, anything else fails. -/
def renderW : Renderer := fun p =>
  if p = "b/Ch1.pdf" then Except.ok [10, 11]
  else if p = "b/Ch2.pdf" then Except.ok [20, 21, 22]
  else Except.error RastFail.rastFail

/-- The chapters of the scenario book: `Ch1.pdf` and `Ch2.pdf`. -/
def chaptersW : List ChapterData :=
  [⟨"Ch1.pdf", "b/Ch1.pdf", 1⟩, ⟨"Ch2.pdf", "b/Ch2.pdf", 2⟩]

/-- The accumulator state after processing `chaptersW` under `renderW`. -/
def stW : EbookState :=
  ⟨chaptersW.flatMap (chapterPageIds renderW),
   chaptersW.map (fun cd => ⟨chapterPageIds renderW cd, cd.chapter_title⟩),
   chaptersW.flatMap (chapterItems renderW),
   chaptersW.flatMap (chapterEntries renderW)⟩

/-- The navPoints of the scenario book's navigation document. -/
def npsW : List NavPoint :=
  (List.enumFrom 0 chaptersW).map fun p =>
    ⟨"navPoint-" ++ decimalRepr (p.1 + 1), p.1 + 1, p.2.chapter_title,
     pageIdStr p.2.chapter_number 1 ++ ".xhtml"⟩

/-- A rasterizer for the chapter-number counterexample book. -/
def renderC1 : Renderer := fun p =>
  if p = "d/1Ch2.pdf" then Except.ok [30]
  else if p = "d/3.pdf" then Except.ok [40]
  else Except.error RastFail.rastFail

/-- The chapters `init_pdf_list` produces for the listing
`[1Ch2.pdf, 3.pdf]`: the name `1Ch2.pdf` parses to chapter number 12
(the `Ch` deletion merges the digit runs) but sorts under key 1 (first
digit run of the raw name), so it stays before `3.pdf` (key 3, chapter
number 3). -/
def chaptersC1 : List ChapterData :=
  [⟨"1Ch2.pdf", "d/1Ch2.pdf", 12⟩, ⟨"3.pdf", "d/3.pdf", 3⟩]

/-- The accumulator state after processing `chaptersC1` under `renderC1`. -/
def stC1 : EbookState :=
  ⟨chaptersC1.flatMap (chapterPageIds renderC1),
   chaptersC1.map (fun cd => ⟨chapterPageIds renderC1 cd, cd.chapter_title⟩),
   chaptersC1.flatMap (chapterItems renderC1),
   chaptersC1.flatMap (chapterEntries renderC1)⟩

/-- A rasterizer that fails on every chapter except `c/Ch1.pdf`. -/
def renderC7 : Renderer := fun p =>
  if p = "c/Ch1.pdf" then Except.ok [7] else Except.error RastFail.rastFail

/-- A rasterizer for the two-book run of the C6 counterexample. -/
def renderC6 : Renderer := fun p =>
  if p = "pb/Ch1.pdf" then Except.ok [5] else Except.error RastFail.rastFail

/-- The run environment of the C6 counterexample: `pa` holds a chapter
file with no digits in its name, `pb` a well-formed chapter. -/
def worldC6 : World :=
  ⟨["pa", "pb"],
   fun p => if p = "pa" then ["x.pdf"] else ["Ch1.pdf"],
   renderC6⟩

/-- The two configured books of the C6 counterexample. -/
def cfgC6 : List BookCfg := [⟨"book1", some "pa"⟩, ⟨"book2", some "pb"⟩]

/-! ### Theorems -/

/-! ### Lemmas: decimal digits -/

theorem digitChar_isDigit (d : Nat) (h : d < 10) : (digitChar d).isDigit := by
  interval_cases d <;> decide

theorem digitChar_inj (d e : Nat) (hd : d < 10) (he : e < 10)
    (h : digitChar d = digitChar e) : d = e := by
  interval_cases d <;> interval_cases e <;> revert h <;> decide

theorem natDigitsAux_congr (f1 : Nat) :
    ∀ (f2 n : Nat), n < f1 → n < f2 → natDigitsAux f1 n = natDigitsAux f2 n := by
  induction f1 with
  | zero => intro f2 n h1 _; omega
  | succ f ih =>
    intro f2 n h1 h2
    cases f2 with
    | zero => omega
    | succ g =>
      simp only [natDigitsAux]
      by_cases h10 : n < 10
      · simp [h10]
      · have hpos : 0 < n := by omega
        have hdiv : n / 10 < n := Nat.div_lt_self hpos (by omega)
        rw [if_neg h10, if_neg h10, ih g (n / 10) (by omega) (by omega)]

theorem natDigits_of_lt {n : Nat} (h : n < 10) : natDigits n = [digitChar n] := by
  simp [natDigits, natDigitsAux, h]

theorem natDigits_of_ge {n : Nat} (h : 10 ≤ n) :
    natDigits n = natDigits (n / 10) ++ [digitChar (n % 10)] := by
  have hpos : 0 < n := by omega
  have hdiv : n / 10 < n := Nat.div_lt_self hpos (by omega)
  show natDigitsAux (n + 1) n = _
  simp only [natDigitsAux, if_neg (by omega : ¬ n < 10)]
  rw [natDigitsAux_congr n (n / 10 + 1) (n / 10) (by omega) (by omega)]
  rfl

theorem natDigits_ne_nil (n : Nat) : natDigits n ≠ [] := by
  rcases Nat.lt_or_ge n 10 with h | h
  · rw [natDigits_of_lt h]; simp
  · rw [natDigits_of_ge h]; simp

theorem natDigits_isDigit (n : Nat) : ∀ c ∈ natDigits n, c.isDigit := by
  induction n using Nat.strong_induction_on with
  | _ n ih =>
    rcases Nat.lt_or_ge n 10 with h | h
    · rw [natDigits_of_lt h]
      intro c hc
      simp at hc
      subst hc
      exact digitChar_isDigit n h
    · rw [natDigits_of_ge h]
      intro c hc
      have hpos : 0 < n := by omega
      rcases List.mem_append.mp hc with hc | hc
      · exact ih (n / 10) (Nat.div_lt_self hpos (by omega)) c hc
      · simp at hc
        subst hc
        exact digitChar_isDigit _ (Nat.mod_lt n (by omega))

theorem natDigits_getLast? (n : Nat) :
    (natDigits n).getLast? = some (digitChar (n % 10)) := by
  rcases Nat.lt_or_ge n 10 with h | h
  · rw [natDigits_of_lt h, Nat.mod_eq_of_lt h]; rfl
  · rw [natDigits_of_ge h, List.getLast?_append]; rfl

theorem natDigits_inj (a : Nat) : ∀ b, natDigits a = natDigits b → a = b := by
  induction a using Nat.strong_induction_on with
  | _ a ih =>
    intro b h
    rcases Nat.lt_or_ge a 10 with ha | ha <;> rcases Nat.lt_or_ge b 10 with hb | hb
    · rw [natDigits_of_lt ha, natDigits_of_lt hb] at h
      simp at h
      exact digitChar_inj a b ha hb h
    · exfalso
      rw [natDigits_of_lt ha, natDigits_of_ge hb] at h
      cases hnil : natDigits (b / 10) with
      | nil => exact natDigits_ne_nil (b / 10) hnil
      | cons d l => rw [hnil] at h; simp at h
    · exfalso
      rw [natDigits_of_ge ha, natDigits_of_lt hb] at h
      cases hnil : natDigits (a / 10) with
      | nil => exact natDigits_ne_nil (a / 10) hnil
      | cons d l => rw [hnil] at h; simp at h
    · rw [natDigits_of_ge ha, natDigits_of_ge hb] at h
      obtain ⟨h1, h2⟩ := List.append_inj' h rfl
      have hpos : 0 < a := by omega
      have hmod : a % 10 = b % 10 :=
        digitChar_inj _ _ (Nat.mod_lt a (by omega)) (Nat.mod_lt b (by omega))
          (by simpa using h2)
      have hdiv : a / 10 = b / 10 :=
        ih (a / 10) (Nat.div_lt_self hpos (by omega)) (b / 10) h1
      omega

theorem decimalRepr_inj {a b : Nat} (h : decimalRepr a = decimalRepr b) : a = b := by
  apply natDigits_inj
  exact congrArg String.data h

/-! ### Lemmas: page-id strings -/

theorem digit_ne_space {c : Char} (h : c.isDigit) : c ≠ ' ' := by
  intro he
  rw [he] at h
  exact absurd h (by decide)

theorem replaceDelAux_no_space (fuel : Nat) :
    ∀ l : List Char, l.length ≤ fuel → (∀ c ∈ l, c ≠ ' ') →
      replaceDelAux [' '] fuel l = l := by
  induction fuel with
  | zero =>
    intro l hlen _
    cases l with
    | nil => rfl
    | cons c rest => simp at hlen
  | succ f ih =>
    intro l hlen hmem
    cases l with
    | nil => rfl
    | cons c rest =>
      have hc : c ≠ ' ' := hmem c (List.mem_cons_self c rest)
      simp only [replaceDelAux]
      rw [if_neg]
      · rw [ih rest (by simpa using Nat.le_of_succ_le_succ (by simpa using hlen))
          (fun d hd => hmem d (List.mem_cons_of_mem c hd))]
      · intro hcond
        have := hcond.2
        simp [List.isPrefixOf] at this
        exact hc this.symm

theorem replaceDel_no_space (l : List Char) (h : ∀ c ∈ l, c ≠ ' ') :
    replaceDel [' '] l = l :=
  replaceDelAux_no_space l.length l le_rfl h

theorem pageIdStr_eq (n p : Nat) :
    pageIdStr n p = ⟨"chapter_".data ++ natDigits n ++ "_page_".data ++ natDigits p⟩ := by
  have hdata : ("chapter_" ++ decimalRepr n ++ "_page_" ++ decimalRepr p).data
      = "chapter_".data ++ natDigits n ++ "_page_".data ++ natDigits p := by
    simp [String.data_append, decimalRepr]
  show pyReplaceDel _ " " = _
  unfold pyReplaceDel
  rw [show (" " : String).data = [' '] from rfl, hdata]
  congr 1
  apply replaceDel_no_space
  intro c hc
  simp only [List.append_assoc, List.mem_append] at hc
  rcases hc with hc | hc | hc | hc
  · exact (by decide : ∀ c ∈ "chapter_".data, c ≠ ' ') c hc
  · exact digit_ne_space (natDigits_isDigit n c hc)
  · exact (by decide : ∀ c ∈ "_page_".data, c ≠ ' ') c hc
  · exact digit_ne_space (natDigits_isDigit p c hc)

theorem digits_sep_inj :
    ∀ (xs ys rest rest2 : List Char), (∀ c ∈ xs, c.isDigit) → (∀ c ∈ ys, c.isDigit) →
      xs ++ '_' :: rest = ys ++ '_' :: rest2 → xs = ys ∧ rest = rest2 := by
  intro xs
  induction xs with
  | nil =>
    intro ys rest rest2 _ hy h
    cases ys with
    | nil =>
      simp at h
      exact ⟨rfl, h⟩
    | cons d ys2 =>
      exfalso
      simp at h
      have hd := hy d (List.mem_cons_self d ys2)
      rw [← h.1] at hd
      exact absurd hd (by decide)
  | cons c xs2 ih =>
    intro ys rest rest2 hx hy h
    cases ys with
    | nil =>
      exfalso
      simp at h
      have hc := hx c (List.mem_cons_self c xs2)
      rw [h.1] at hc
      exact absurd hc (by decide)
    | cons d ys2 =>
      simp at h
      obtain ⟨rfl, h2⟩ := h
      obtain ⟨h3, h4⟩ := ih ys2 rest rest2
        (fun e he => hx e (List.mem_cons_of_mem _ he))
        (fun e he => hy e (List.mem_cons_of_mem _ he)) h2
      exact ⟨by rw [h3], h4⟩

theorem pageIdStr_data (n p : Nat) :
    (pageIdStr n p).data
      = "chapter_".data ++ (natDigits n ++ ('_' :: ("page_".data ++ natDigits p))) := by
  rw [pageIdStr_eq]
  show "chapter_".data ++ natDigits n ++ "_page_".data ++ natDigits p = _
  simp [List.append_assoc]

theorem pageIdStr_inj {n p n2 p2 : Nat} (h : pageIdStr n p = pageIdStr n2 p2) :
    n = n2 ∧ p = p2 := by
  have hd := congrArg String.data h
  rw [pageIdStr_data, pageIdStr_data] at hd
  have h2 := List.append_cancel_left hd
  obtain ⟨h3, h4⟩ := digits_sep_inj _ _ _ _ (natDigits_isDigit n) (natDigits_isDigit n2) h2
  have h5 := List.append_cancel_left h4
  exact ⟨natDigits_inj n n2 h3, natDigits_inj p p2 h5⟩

theorem pageIdStr_getLast? (n p : Nat) :
    (pageIdStr n p).data.getLast? = some (digitChar (p % 10)) := by
  have : (pageIdStr n p).data
      = ("chapter_".data ++ natDigits n ++ "_page_".data) ++ natDigits p := by
    rw [pageIdStr_eq]
  rw [this, List.getLast?_append, natDigits_getLast?]
  rfl

theorem imgId_getLast? (q : String) : (q ++ "_img").data.getLast? = some 'g' := by
  rw [String.data_append, List.getLast?_append]
  rfl

theorem pageIdStr_ne_imgId (n p : Nat) (q : String) : pageIdStr n p ≠ q ++ "_img" := by
  intro h
  have h2 := congrArg (fun s => String.data s |>.getLast?) h
  simp only [pageIdStr_getLast?, imgId_getLast?] at h2
  have hlt : p % 10 < 10 := Nat.mod_lt p (by omega)
  have : digitChar (p % 10) = 'g' := by simpa using h2
  revert this
  interval_cases h : p % 10 <;> decide

theorem imgId_inj {q q2 : String} (h : q ++ "_img" = q2 ++ "_img") : q = q2 := by
  have hd := congrArg String.data h
  rw [String.data_append, String.data_append] at hd
  have h2 := List.append_cancel_right hd
  cases q
  cases q2
  exact congrArg String.mk h2

theorem pageIdStr_ne_ncx (n p : Nat) : pageIdStr n p ≠ "ncx" := by
  intro h
  have h2 := congrArg String.data h
  rw [pageIdStr_data] at h2
  have h3 := congrArg List.head? h2
  have h4 : some 'c' = some 'n' := h3
  simp at h4

theorem imgId_ne_ncx (n p : Nat) : pageIdStr n p ++ "_img" ≠ "ncx" := by
  intro h
  have h2 := congrArg String.data h
  have h3 := congrArg List.getLast? h2
  rw [String.data_append, List.getLast?_append] at h3
  have h4 : some 'g' = some 'x' := h3
  simp at h4

theorem enum_map_fst_comp {α β : Type} (l : List α) (g : Nat → β) :
    l.enum.map (fun p => g p.1) = (List.range l.length).map g := by
  rw [show (fun p : Nat × α => g p.1) = g ∘ Prod.fst from rfl, ← List.map_map,
    List.enum_map_fst]

theorem enum_flatMap_fst_comp {α β : Type} (l : List α) (g : Nat → List β) :
    l.enum.flatMap (fun p => g p.1) = (List.range l.length).flatMap g := by
  rw [← List.enum_map_fst l, List.flatMap_map]

theorem isOk_exists {ε α : Type} {x : Except ε α} (h : x.isOk) :
    ∃ a, x = Except.ok a := by
  cases x with
  | ok a => exact ⟨a, rfl⟩
  | error e => exact absurd h (by intro hc; exact Bool.noConfusion hc)

theorem create_chapter_ok {render : Renderer} {cd : ChapterData} {imgs : List Img}
    (h : render cd.path = Except.ok imgs) :
    create_chapter render cd
      = Except.ok (chapterEntries render cd, chapterItems render cd, chapterPageIds render cd) := by
  have hr : renderedPages render cd = imgs := by
    unfold renderedPages
    rw [h]
  have h1 : chapterEntries render cd
      = imgs.enum.flatMap fun p =>
          [pageXhtmlEntry cd.chapter_title (p.1 + 1) (pageIdStr cd.chapter_number (p.1 + 1)),
           pageImageEntry (pageIdStr cd.chapter_number (p.1 + 1)) p.2] := by
    unfold chapterEntries
    rw [hr]
  have h2 : chapterItems render cd
      = imgs.enum.flatMap fun p =>
          [pageDocItem (pageIdStr cd.chapter_number (p.1 + 1)),
           pageImgItem (pageIdStr cd.chapter_number (p.1 + 1))] := by
    unfold chapterItems numPages
    rw [hr]
    exact (enum_flatMap_fst_comp imgs _).symm
  have h3 : chapterPageIds render cd
      = imgs.enum.map fun p => pageIdStr cd.chapter_number (p.1 + 1) := by
    unfold chapterPageIds numPages
    rw [hr]
    exact (enum_map_fst_comp imgs _).symm
  unfold create_chapter
  rw [h, h1, h2, h3]

theorem create_chapter_err {render : Renderer} {cd : ChapterData} {e : RastFail}
    (h : render cd.path = Except.error e) :
    create_chapter render cd = Except.error e := by
  unfold create_chapter
  rw [h]

theorem handle_chapter_ok {render : Renderer} {cd : ChapterData} {imgs : List Img}
    (st : EbookState) (h : render cd.path = Except.ok imgs) :
    handle_chapter render st cd
      = Except.ok
          ⟨st.spine ++ chapterPageIds render cd,
           st.toc ++ [⟨chapterPageIds render cd, cd.chapter_title⟩],
           st.manifest_items ++ chapterItems render cd,
           st.entries ++ chapterEntries render cd⟩ := by
  unfold handle_chapter
  rw [create_chapter_ok h]

theorem handle_chapter_err {render : Renderer} {cd : ChapterData} {e : RastFail}
    (st : EbookState) (h : render cd.path = Except.error e) :
    handle_chapter render st cd = Except.error e := by
  unfold handle_chapter
  rw [create_chapter_err h]

/-- The whole-book closed form of the chapter loop, when every
chapter's PDF rasterizes. -/
theorem runChapters_eq (render : Renderer) (chapters : List ChapterData) :
    ∀ st : EbookState, (∀ cd ∈ chapters, (render cd.path).isOk) →
      runChapters render st chapters
        = Except.ok
            ⟨st.spine ++ chapters.flatMap (chapterPageIds render),
             st.toc ++ chapters.map (fun cd => ⟨chapterPageIds render cd, cd.chapter_title⟩),
             st.manifest_items ++ chapters.flatMap (chapterItems render),
             st.entries ++ chapters.flatMap (chapterEntries render)⟩ := by
  induction chapters with
  | nil => intro st _; simp [runChapters]
  | cons cd rest ih =>
    intro st hok
    obtain ⟨imgs, himgs⟩ := isOk_exists (hok cd (List.mem_cons_self cd rest))
    show (match handle_chapter render st cd with
      | Except.error e => Except.error e
      | Except.ok st2 => runChapters render st2 rest) = _
    rw [handle_chapter_ok st himgs]
    show runChapters render
        ⟨st.spine ++ chapterPageIds render cd,
         st.toc ++ [⟨chapterPageIds render cd, cd.chapter_title⟩],
         st.manifest_items ++ chapterItems render cd,
         st.entries ++ chapterEntries render cd⟩ rest = _
    rw [ih _ (fun c hc => hok c (List.mem_cons_of_mem cd hc))]
    simp [List.append_assoc]

theorem runChapters_ok_isOk {render : Renderer} :
    ∀ (chapters : List ChapterData) (st st2 : EbookState),
      runChapters render st chapters = Except.ok st2 →
      ∀ cd ∈ chapters, (render cd.path).isOk := by
  intro chapters
  induction chapters with
  | nil => intro st st2 _ cd hcd; simp at hcd
  | cons c rest ih =>
    intro st st2 hrun cd hcd
    revert hrun
    show (match handle_chapter render st c with
      | Except.error e => Except.error e
      | Except.ok st3 => runChapters render st3 rest) = Except.ok st2 → _
    cases hh : handle_chapter render st c with
    | error e => intro h; simp at h
    | ok st3 =>
      intro hrun
      rcases List.mem_cons.mp hcd with rfl | hcd2
      · revert hh
        unfold handle_chapter
        cases hr : render cd.path with
        | ok imgs => intro _; rfl
        | error e => rw [create_chapter_err hr]; intro h; simp at h
      · exact ih st3 st2 hrun cd hcd2

/-- On success, the accumulators of the book build are exactly the
per-chapter contributions, concatenated in chapter order. -/
theorem runChapters_closed {render : Renderer} {chapters : List ChapterData}
    {st : EbookState} (h : runChapters render initState chapters = Except.ok st) :
    st.spine = chapters.flatMap (chapterPageIds render) ∧
    st.toc = chapters.map (fun cd => ⟨chapterPageIds render cd, cd.chapter_title⟩) ∧
    st.manifest_items = chapters.flatMap (chapterItems render) ∧
    st.entries = chapters.flatMap (chapterEntries render) := by
  have hok := runChapters_ok_isOk chapters initState st h
  rw [runChapters_eq render chapters initState hok] at h
  have h2 := (Except.ok.injEq _ _).mp h
  rw [← h2]
  simp [initState]

theorem chapterItems_map_id (render : Renderer) (cd : ChapterData) :
    (chapterItems render cd).map (fun m => m.id) = idsOfChapter render cd := by
  unfold chapterItems idsOfChapter
  rw [List.map_flatMap]
  rfl

theorem mem_idsOfChapter {render : Renderer} {cd : ChapterData} {a : String} :
    a ∈ idsOfChapter render cd ↔
      ∃ i, i < numPages render cd ∧
        (a = pageIdStr cd.chapter_number (i + 1)
          ∨ a = pageIdStr cd.chapter_number (i + 1) ++ "_img") := by
  unfold idsOfChapter
  simp [List.mem_flatMap, List.mem_range]

theorem idsOfChapter_nodup (render : Renderer) (cd : ChapterData) :
    (idsOfChapter render cd).Nodup := by
  unfold idsOfChapter
  rw [List.nodup_flatMap]
  constructor
  · intro i _
    simp
    exact pageIdStr_ne_imgId _ _ _
  · refine List.Pairwise.imp ?_ (List.nodup_range (numPages render cd))
    intro i j hij a ha hb
    simp at ha hb
    rcases ha with rfl | rfl <;> rcases hb with hb | hb
    · exact hij (by have := (pageIdStr_inj hb).2; omega)
    · exact absurd hb (pageIdStr_ne_imgId _ _ _)
    · exact absurd hb.symm (pageIdStr_ne_imgId _ _ _)
    · exact hij (by have := (pageIdStr_inj (imgId_inj hb)).2; omega)

theorem bookIds_nodup (render : Renderer) (chapters : List ChapterData)
    (hnd : (chapters.map ChapterData.chapter_number).Nodup) :
    (chapters.flatMap (idsOfChapter render)).Nodup := by
  rw [List.nodup_flatMap]
  refine ⟨fun cd _ => idsOfChapter_nodup render cd, ?_⟩
  have h2 : chapters.Pairwise fun c d => c.chapter_number ≠ d.chapter_number :=
    List.pairwise_map.mp hnd
  refine List.Pairwise.imp ?_ h2
  intro c d hcd a ha hb
  rw [mem_idsOfChapter] at ha hb
  obtain ⟨i, hi, ha⟩ := ha
  obtain ⟨j, hj, hb⟩ := hb
  rcases ha with rfl | rfl <;> rcases hb with hb | hb
  · exact hcd (pageIdStr_inj hb).1
  · exact absurd hb (pageIdStr_ne_imgId _ _ _)
  · exact absurd hb.symm (pageIdStr_ne_imgId _ _ _)
  · exact hcd (pageIdStr_inj (imgId_inj hb)).1

theorem map_id_flatMap_items (render : Renderer) (chapters : List ChapterData) :
    (chapters.flatMap (chapterItems render)).map (fun m => m.id)
      = chapters.flatMap (idsOfChapter render) := by
  rw [List.map_flatMap]
  exact congrArg (List.flatMap chapters) (funext fun cd => chapterItems_map_id render cd)

/-- Under pairwise-distinct chapter numbers, every id of the finalized
manifest (the ncx id, the page ids and the image ids) is distinct. -/
theorem finalManifest_ids_nodup (render : Renderer) (chapters : List ChapterData)
    (hnd : (chapters.map ChapterData.chapter_number).Nodup) :
    ((finalManifest (chapters.flatMap (chapterItems render))).map (fun m => m.id)).Nodup := by
  unfold finalManifest
  rw [List.map_cons, List.nodup_cons, map_id_flatMap_items]
  constructor
  · intro hmem
    rw [List.mem_flatMap] at hmem
    obtain ⟨cd, _, hmem⟩ := hmem
    rw [mem_idsOfChapter] at hmem
    obtain ⟨i, _, h | h⟩ := hmem
    · exact pageIdStr_ne_ncx _ _ h.symm
    · exact imgId_ne_ncx _ _ h.symm
  · exact bookIds_nodup render chapters hnd

theorem pageIds_injective (n : Nat) :
    Function.Injective fun i => pageIdStr n (i + 1) := by
  intro i j h
  have := (pageIdStr_inj h).2
  omega

theorem chapterPageIds_nodup (render : Renderer) (cd : ChapterData) :
    (chapterPageIds render cd).Nodup := by
  unfold chapterPageIds
  exact (List.nodup_range _).map (pageIds_injective cd.chapter_number)

theorem mem_chapterPageIds {render : Renderer} {cd : ChapterData} {a : String} :
    a ∈ chapterPageIds render cd ↔
      ∃ i, i < numPages render cd ∧ a = pageIdStr cd.chapter_number (i + 1) := by
  unfold chapterPageIds
  simp [List.mem_map, List.mem_range, eq_comm]

/-- Under pairwise-distinct chapter numbers, the spine has no duplicate
page id. -/
theorem spine_nodup (render : Renderer) (chapters : List ChapterData)
    (hnd : (chapters.map ChapterData.chapter_number).Nodup) :
    (chapters.flatMap (chapterPageIds render)).Nodup := by
  rw [List.nodup_flatMap]
  refine ⟨fun cd _ => chapterPageIds_nodup render cd, ?_⟩
  have h2 : chapters.Pairwise fun c d => c.chapter_number ≠ d.chapter_number :=
    List.pairwise_map.mp hnd
  refine List.Pairwise.imp ?_ h2
  intro c d hcd a ha hb
  rw [mem_chapterPageIds] at ha hb
  obtain ⟨i, _, rfl⟩ := ha
  obtain ⟨j, _, hb⟩ := hb
  exact hcd (pageIdStr_inj hb).1

/-! ### Claim C2 -/

/-- C2: for every book with pairwise-distinct chapter numbers, every
page id appears exactly once in the spine and exactly twice in the
manifest: once as the document entry (id the page id, href the page id
followed by `.xhtml`, media type `application/xhtml+xml`) and once as
the image entry (id the page id followed by `_img`, href `static/` then
the page id then `.png`, media type `image/png`); and every manifest
entry whose id is referenced from the spine is that page document
entry, never an image entry. -/
theorem c2_spine_manifest_ids (render : Renderer) (chapters : List ChapterData)
    (st : EbookState)
    (hnd : (chapters.map ChapterData.chapter_number).Nodup)
    (hrun : runChapters render initState chapters = Except.ok st) :
    ∀ pid ∈ st.spine,
      st.spine.count pid = 1 ∧
      ((finalManifest st.manifest_items).map (fun m => m.id)).count pid = 1 ∧
      pageDocItem pid ∈ finalManifest st.manifest_items ∧
      ((finalManifest st.manifest_items).map (fun m => m.id)).count (pid ++ "_img") = 1 ∧
      pageImgItem pid ∈ finalManifest st.manifest_items ∧
      ∀ m ∈ finalManifest st.manifest_items, m.id = pid → m = pageDocItem pid := by
  obtain ⟨hspine, _, hitems, _⟩ := runChapters_closed hrun
  intro pid hpid
  rw [hspine] at hpid
  rw [List.mem_flatMap] at hpid
  obtain ⟨cd, hcd, hpid2⟩ := hpid
  rw [mem_chapterPageIds] at hpid2
  obtain ⟨i, hi, rfl⟩ := hpid2
  have hdocmem : pageDocItem (pageIdStr cd.chapter_number (i + 1))
      ∈ finalManifest st.manifest_items := by
    rw [hitems]
    refine List.mem_cons_of_mem _ ?_
    rw [List.mem_flatMap]
    refine ⟨cd, hcd, ?_⟩
    unfold chapterItems
    rw [List.mem_flatMap]
    exact ⟨i, List.mem_range.mpr hi, List.mem_cons_self _ _⟩
  have himgmem : pageImgItem (pageIdStr cd.chapter_number (i + 1))
      ∈ finalManifest st.manifest_items := by
    rw [hitems]
    refine List.mem_cons_of_mem _ ?_
    rw [List.mem_flatMap]
    refine ⟨cd, hcd, ?_⟩
    unfold chapterItems
    rw [List.mem_flatMap]
    refine ⟨i, List.mem_range.mpr hi, ?_⟩
    exact List.mem_cons_of_mem _ (List.mem_cons_self _ _)
  have hidnodup : ((finalManifest st.manifest_items).map (fun m => m.id)).Nodup := by
    rw [hitems]
    exact finalManifest_ids_nodup render chapters hnd
  have hspn : st.spine.Nodup := by
    rw [hspine]
    exact spine_nodup render chapters hnd
  have hmemsp : pageIdStr cd.chapter_number (i + 1) ∈ st.spine := by
    rw [hspine, List.mem_flatMap]
    refine ⟨cd, hcd, ?_⟩
    rw [mem_chapterPageIds]
    exact ⟨i, hi, rfl⟩
  refine ⟨List.count_eq_one_of_mem hspn hmemsp, ?_, hdocmem, ?_, himgmem, ?_⟩
  · exact List.count_eq_one_of_mem hidnodup
      (List.mem_map.mpr ⟨pageDocItem _, hdocmem, rfl⟩)
  · exact List.count_eq_one_of_mem hidnodup
      (List.mem_map.mpr ⟨pageImgItem _, himgmem, rfl⟩)
  · intro m hm hmid
    exact List.inj_on_of_nodup_map hidnodup hm hdocmem hmid

/-- Witness for C2 at the two-chapter scenario book, instantiated at
the first page of chapter 1. -/
theorem c2_spine_manifest_ids_witness :
    stW.spine.count (pageIdStr 1 1) = 1 ∧
    ((finalManifest stW.manifest_items).map (fun m => m.id)).count (pageIdStr 1 1) = 1 ∧
    pageDocItem (pageIdStr 1 1) ∈ finalManifest stW.manifest_items ∧
    ((finalManifest stW.manifest_items).map (fun m => m.id)).count
        (pageIdStr 1 1 ++ "_img") = 1 ∧
    pageImgItem (pageIdStr 1 1) ∈ finalManifest stW.manifest_items :=
  have h := c2_spine_manifest_ids renderW chaptersW stW (by decide) (by decide)
    (pageIdStr 1 1) (by decide)
  ⟨h.1, h.2.1, h.2.2.1, h.2.2.2.1, h.2.2.2.2.1⟩

/-! ### Claim C5 -/

theorem flatMap_pair_length {α β : Type} (f g : α → β) (l : List α) :
    (l.flatMap fun a => [f a, g a]).length = 2 * l.length := by
  induction l with
  | nil => rfl
  | cons a rest ih =>
    rw [List.flatMap_cons, List.length_append, ih]
    simp
    omega

theorem chapterItems_length (render : Renderer) (cd : ChapterData) :
    (chapterItems render cd).length = 2 * (chapterPageIds render cd).length := by
  unfold chapterItems chapterPageIds
  rw [flatMap_pair_length
      (fun i => pageDocItem (pageIdStr cd.chapter_number (i + 1)))
      (fun i => pageImgItem (pageIdStr cd.chapter_number (i + 1)))
      (List.range (numPages render cd)),
    List.length_map]

theorem book_items_length (render : Renderer) (chapters : List ChapterData) :
    (chapters.flatMap (chapterItems render)).length
      = 2 * (chapters.flatMap (chapterPageIds render)).length := by
  induction chapters with
  | nil => rfl
  | cons cd rest ih =>
    rw [List.flatMap_cons, List.flatMap_cons, List.length_append, List.length_append,
      ih, chapterItems_length]
    omega

/-- C5: for every book build that completes (zero pages included), the
finalized manifest has exactly twice the spine length plus one entries
(each page contributes a document and an image item, plus the fixed ncx
item), hence strictly more entries than the spine. -/
theorem c5_manifest_vs_spine (render : Renderer) (chapters : List ChapterData)
    (st : EbookState)
    (hrun : runChapters render initState chapters = Except.ok st) :
    (finalManifest st.manifest_items).length = 2 * st.spine.length + 1 ∧
    st.spine.length < (finalManifest st.manifest_items).length := by
  obtain ⟨hspine, _, hitems, _⟩ := runChapters_closed hrun
  rw [hspine, hitems]
  unfold finalManifest
  rw [List.length_cons, book_items_length]
  omega

/-- Witness for C5 at the two-chapter scenario book. -/
theorem c5_manifest_vs_spine_witness :
    (finalManifest stW.manifest_items).length = 2 * stW.spine.length + 1 ∧
    stW.spine.length < (finalManifest stW.manifest_items).length :=
  c5_manifest_vs_spine renderW chaptersW stW (by decide)

/-! ### Claims C3 and C10: the navigation document -/

theorem build_ncx_list_isSome :
    ∀ (toc : List ChapterTOC) (i : Nat),
      (build_ncx_list i toc).isSome ↔ ∀ ct ∈ toc, ct.page_ids ≠ [] := by
  intro toc
  induction toc with
  | nil => intro i; simp [build_ncx_list]
  | cons ct rest ih =>
    intro i
    simp only [build_ncx_list]
    cases hpp : ct.page_ids with
    | nil =>
      simp only [List.head?_nil, Option.isSome_none]
      constructor
      · intro h; simp at h
      · intro h
        exact absurd hpp (h ct (List.mem_cons_self ct rest))
    | cons fp r2 =>
      simp only [List.head?_cons]
      cases hb : build_ncx_list (i + 1) rest with
      | none =>
        simp only [Option.isSome_none]
        constructor
        · intro h; simp at h
        · intro h
          have h2 := (ih (i + 1)).mpr fun c hc => h c (List.mem_cons_of_mem ct hc)
          rw [hb] at h2
          simp at h2
      | some nps =>
        simp only [Option.isSome_some, true_iff]
        intro c hc
        rcases List.mem_cons.mp hc with rfl | hc2
        · rw [hpp]; simp
        · have h2 : (build_ncx_list (i + 1) rest).isSome := by rw [hb]; rfl
          exact (ih (i + 1)).mp h2 c hc2

theorem head?_chapterPageIds {render : Renderer} {cd : ChapterData}
    (h : numPages render cd ≠ 0) :
    (chapterPageIds render cd).head? = some (pageIdStr cd.chapter_number 1) := by
  unfold chapterPageIds
  cases hk : numPages render cd with
  | zero => exact absurd hk h
  | succ m =>
    rw [List.range_succ_eq_map]
    rfl

theorem chapterPageIds_ne_nil {render : Renderer} {cd : ChapterData}
    (h : numPages render cd ≠ 0) : chapterPageIds render cd ≠ [] := by
  intro hnil
  have := congrArg List.head? hnil
  rw [head?_chapterPageIds h] at this
  simp at this

theorem build_ncx_chapters (render : Renderer) :
    ∀ (chapters : List ChapterData) (i : Nat),
      (∀ cd ∈ chapters, numPages render cd ≠ 0) →
      build_ncx_list i
          (chapters.map (fun cd => ⟨chapterPageIds render cd, cd.chapter_title⟩))
        = some ((List.enumFrom i chapters).map fun p =>
            ⟨"navPoint-" ++ decimalRepr (p.1 + 1), p.1 + 1, p.2.chapter_title,
             pageIdStr p.2.chapter_number 1 ++ ".xhtml"⟩) := by
  intro chapters
  induction chapters with
  | nil => intro i _; rfl
  | cons cd rest ih =>
    intro i hne
    have hcd := hne cd (List.mem_cons_self cd rest)
    simp only [List.map_cons, build_ncx_list]
    rw [head?_chapterPageIds hcd]
    rw [ih (i + 1) fun c hc => hne c (List.mem_cons_of_mem cd hc)]
    rfl

theorem enumFrom_map_snd_comp {α β : Type} (G : α → β) :
    ∀ (l : List α) (i : Nat), (List.enumFrom i l).map (fun p => G p.2) = l.map G := by
  intro l
  induction l with
  | nil => intro i; rfl
  | cons a rest ih =>
    intro i
    simp only [List.enumFrom, List.map_cons]
    rw [ih (i + 1)]

theorem enumFrom_map_fst_succ {α : Type} :
    ∀ (l : List α) (i : Nat),
      (List.enumFrom i l).map (fun p => p.1 + 1) = List.range' (i + 1) l.length := by
  intro l
  induction l with
  | nil => intro i; rfl
  | cons a rest ih =>
    intro i
    simp only [List.enumFrom, List.map_cons, List.length_cons, List.range'_succ]
    rw [ih (i + 1)]

theorem enumFrom_map_src :
    ∀ (l : List ChapterData) (i : Nat),
      (List.enumFrom i l).map (fun p => pageIdStr p.2.chapter_number 1 ++ ".xhtml")
        = l.map (fun cd => pageIdStr cd.chapter_number 1 ++ ".xhtml") := by
  intro l
  induction l with
  | nil => intro i; rfl
  | cons a rest ih =>
    intro i
    simp only [List.enumFrom, List.map_cons]
    rw [ih (i + 1)]

/-- C3: for every completed book build in which every chapter has at
least one page, the finalized navigation document has exactly one
navPoint per chapter, in chapter order, with playOrder exactly
`1 .. N` strictly increasing, each labelled with the chapter title
`Chapter` followed by the chapter number, and each referencing the
chapter's first page document (page id of page 1, extension `.xhtml`). -/
theorem c3_navpoints (render : Renderer) (chapters : List ChapterData) (st : EbookState)
    (hrun : runChapters render initState chapters = Except.ok st)
    (hne : ∀ cd ∈ chapters, numPages render cd ≠ 0) :
    ∃ nps, build_ncx_data st.toc = some nps ∧
      nps.length = chapters.length ∧
      nps.map (fun np => np.playOrder) = List.range' 1 chapters.length ∧
      nps.map (fun np => np.label)
        = chapters.map (fun cd => "Chapter " ++ decimalRepr cd.chapter_number) ∧
      nps.map (fun np => np.src)
        = chapters.map (fun cd => pageIdStr cd.chapter_number 1 ++ ".xhtml") := by
  obtain ⟨_, htoc, _, _⟩ := runChapters_closed hrun
  refine ⟨(List.enumFrom 0 chapters).map (fun p =>
      ⟨"navPoint-" ++ decimalRepr (p.1 + 1), p.1 + 1, p.2.chapter_title,
       pageIdStr p.2.chapter_number 1 ++ ".xhtml"⟩), ?_, ?_, ?_, ?_, ?_⟩
  · show build_ncx_data st.toc = _
    rw [htoc]
    exact build_ncx_chapters render chapters 0 hne
  · simp
  · rw [List.map_map]
    show (List.enumFrom 0 chapters).map (fun p => p.1 + 1) = _
    exact enumFrom_map_fst_succ chapters 0
  · rw [List.map_map]
    show (List.enumFrom 0 chapters).map
        (fun p => "Chapter " ++ decimalRepr p.2.chapter_number) = _
    exact enumFrom_map_snd_comp (fun cd => "Chapter " ++ decimalRepr cd.chapter_number)
      chapters 0
  · rw [List.map_map]
    show (List.enumFrom 0 chapters).map
        (fun p => pageIdStr p.2.chapter_number 1 ++ ".xhtml") = _
    exact enumFrom_map_src chapters 0

/-- Witness for C3 at the two-chapter scenario book. -/
theorem c3_navpoints_witness :
    ∃ nps, build_ncx_data stW.toc = some nps ∧
      nps.length = chaptersW.length ∧
      nps.map (fun np => np.playOrder) = List.range' 1 chaptersW.length ∧
      nps.map (fun np => np.label)
        = chaptersW.map (fun cd => "Chapter " ++ decimalRepr cd.chapter_number) ∧
      nps.map (fun np => np.src)
        = chaptersW.map (fun cd => pageIdStr cd.chapter_number 1 ++ ".xhtml") :=
  c3_navpoints renderW chaptersW stW (by decide) (by decide)

/-- C10: navigation finalization is partial exactly in the zero-page
case: `build_ncx_data` returns a navigation document if and only if
every chapter entry of the table of contents has a non-empty page-id
list; a chapter whose PDF rendered zero pages makes it fail (the
Python `IndexError` on the first-page access) instead of producing a
navPoint. -/
theorem c10_ncx_requires_nonempty_chapters (toc : List ChapterTOC) :
    (build_ncx_data toc).isSome ↔ ∀ ct ∈ toc, ct.page_ids ≠ [] :=
  build_ncx_list_isSome toc 0

/-! ### create_ebook branch lemmas -/

theorem create_ebook_parseFail {render : Renderer} {pdfs_path : String}
    {listing : List String} {prior : FileState}
    (h : init_pdf_list pdfs_path listing = none) :
    create_ebook render pdfs_path listing prior = ⟨BuildOutcome.parseFail, prior⟩ := by
  unfold create_ebook
  rw [h]

theorem create_ebook_ok {render : Renderer} {pdfs_path : String}
    {listing : List String} {prior : FileState} {chapters : List ChapterData}
    {st : EbookState} {nps : List NavPoint}
    (hinit : init_pdf_list pdfs_path listing = some chapters)
    (hrun : runChapters render initState chapters = Except.ok st)
    (hncx : build_ncx_data st.toc = some nps) :
    create_ebook render pdfs_path listing prior
      = ⟨BuildOutcome.okB,
         FileState.complete
           ([mimetypeEntry, containerEntry] ++ st.entries ++
            [opfEntry (finalManifest st.manifest_items) st.spine, ncxEntry nps])⟩ := by
  simp only [create_ebook, hinit, hrun, hncx]

theorem create_ebook_rasterFail {render : Renderer} {pdfs_path : String}
    {listing : List String} {prior : FileState} {chapters : List ChapterData}
    {e : RastFail}
    (hinit : init_pdf_list pdfs_path listing = some chapters)
    (hrun : runChapters render initState chapters = Except.error e) :
    create_ebook render pdfs_path listing prior
      = ⟨BuildOutcome.rasterFail,
         FileState.halfWritten
           ([mimetypeEntry, containerEntry] ++
            (create_ebook.runChaptersPrefix render initState chapters).entries)⟩ := by
  simp only [create_ebook, hinit, hrun]

theorem create_ebook_navFail {render : Renderer} {pdfs_path : String}
    {listing : List String} {prior : FileState} {chapters : List ChapterData}
    {st : EbookState}
    (hinit : init_pdf_list pdfs_path listing = some chapters)
    (hrun : runChapters render initState chapters = Except.ok st)
    (hncx : build_ncx_data st.toc = none) :
    create_ebook render pdfs_path listing prior
      = ⟨BuildOutcome.navFail,
         FileState.halfWritten ([mimetypeEntry, containerEntry] ++ st.entries)⟩ := by
  simp only [create_ebook, hinit, hrun, hncx]

/-! ### Claim C4 -/

/-- C4: the zip entries of a completed build are written in exactly this
order: the `mimetype` entry (stored, i.e. uncompressed), then
`META-INF/container.xml`, then for each chapter in chapter order each
page's XHTML document followed by its image, then `OEBPS/content.opf`,
then `OEBPS/toc.ncx`; and in every container this build writes
(complete or interrupted) the `mimetype` entry is the first entry. -/
theorem c4_zip_entry_order (render : Renderer) (pdfs_path : String)
    (listing : List String) (prior : FileState) :
    (∀ chapters st nps,
      init_pdf_list pdfs_path listing = some chapters →
      runChapters render initState chapters = Except.ok st →
      build_ncx_data st.toc = some nps →
      (create_ebook render pdfs_path listing prior).file
        = FileState.complete
            ([mimetypeEntry, containerEntry]
              ++ chapters.flatMap (chapterEntries render)
              ++ [opfEntry (finalManifest st.manifest_items) st.spine, ncxEntry nps]))
    ∧ mimetypeEntry.compress = Compress.stored
    ∧ (∀ es, (create_ebook render pdfs_path listing prior).outcome ≠ BuildOutcome.parseFail →
        ((create_ebook render pdfs_path listing prior).file = FileState.complete es
          ∨ (create_ebook render pdfs_path listing prior).file = FileState.halfWritten es) →
        es.head? = some mimetypeEntry) := by
  refine ⟨?_, rfl, ?_⟩
  · intro chapters st nps hinit hrun hncx
    rw [create_ebook_ok hinit hrun hncx]
    obtain ⟨_, _, _, hentries⟩ := runChapters_closed hrun
    rw [hentries]
  · intro es houtcome hfile
    cases hinit : init_pdf_list pdfs_path listing with
    | none =>
      rw [create_ebook_parseFail hinit] at houtcome
      exact absurd rfl houtcome
    | some chapters =>
      cases hrun : runChapters render initState chapters with
      | error e =>
        rw [create_ebook_rasterFail hinit hrun] at hfile
        rcases hfile with hfile | hfile
        · exact absurd hfile (by intro h2; exact FileState.noConfusion h2)
        · have h3 := (FileState.halfWritten.injEq _ _).mp hfile.symm
          rw [h3]
          rfl
      | ok st =>
        cases hncx : build_ncx_data st.toc with
        | none =>
          rw [create_ebook_navFail hinit hrun hncx] at hfile
          rcases hfile with hfile | hfile
          · exact absurd hfile (by intro h2; exact FileState.noConfusion h2)
          · have h3 := (FileState.halfWritten.injEq _ _).mp hfile.symm
            rw [h3]
            rfl
        | some nps =>
          rw [create_ebook_ok hinit hrun hncx] at hfile
          rcases hfile with hfile | hfile
          · have h3 := (FileState.complete.injEq _ _).mp hfile.symm
            rw [h3]
            rfl
          · exact absurd hfile (by intro h2; exact FileState.noConfusion h2)

/-- Witness for C4 at the two-chapter scenario book. -/
theorem c4_zip_entry_order_witness :
    (create_ebook renderW "b" ["Ch1.pdf", "Ch2.pdf"] FileState.absent).file
      = FileState.complete
          ([mimetypeEntry, containerEntry]
            ++ chaptersW.flatMap (chapterEntries renderW)
            ++ [opfEntry (finalManifest stW.manifest_items) stW.spine, ncxEntry npsW]) :=
  (c4_zip_entry_order renderW "b" ["Ch1.pdf", "Ch2.pdf"] FileState.absent).1
    chaptersW stW npsW (by decide) (by decide) (by decide)

/-! ### Claim C1 -/

theorem chapterPageIds_length (render : Renderer) (cd : ChapterData) :
    (chapterPageIds render cd).length = numPages render cd := by
  unfold chapterPageIds
  rw [List.length_map, List.length_range]

theorem init_pdf_list_sorted {pdfs_path : String} {listing : List String}
    {chapters : List ChapterData}
    (h : init_pdf_list pdfs_path listing = some chapters) :
    List.Sorted chapterLE chapters := by
  unfold init_pdf_list at h
  cases hm : (listing.filter fun f => pyEndsWith f ".pdf").mapM
      (fun f => mkChapterData f (pdfs_path ++ "/" ++ f)) with
  | none => rw [hm] at h; simp at h
  | some parsed =>
    rw [hm] at h
    simp at h
    rw [← h]
    exact List.sorted_insertionSort chapterLE parsed

/-- C1 (amended): for every book, the spine is the concatenation, over
chapters sorted ascending by the sort key `chapter_sorting` (the first
decimal number in the raw file name — this coincides with the derived
chapter number for conventional names such as `Ch1.pdf`, but not for
every name), of that chapter's page ids in page-number order, and its
length is the total page count; the `Ch1.pdf` (2 pages) / `Ch2.pdf`
(3 pages) scenario yields exactly the spine the claim states. -/
theorem c1_spine_order :
    (∀ (render : Renderer) (pdfs_path : String) (listing : List String)
        (chapters : List ChapterData) (st : EbookState),
        init_pdf_list pdfs_path listing = some chapters →
        runChapters render initState chapters = Except.ok st →
        List.Sorted chapterLE chapters ∧
        st.spine = chapters.flatMap (chapterPageIds render) ∧
        st.spine.length = (chapters.map (numPages render)).sum)
    ∧ (init_pdf_list "b" ["Ch1.pdf", "Ch2.pdf"] = some chaptersW ∧
        runChapters renderW initState chaptersW = Except.ok stW ∧
        stW.spine = [pageIdStr 1 1, pageIdStr 1 2,
                     pageIdStr 2 1, pageIdStr 2 2, pageIdStr 2 3]) := by
  constructor
  · intro render pdfs_path listing chapters st hinit hrun
    obtain ⟨hspine, _, _, _⟩ := runChapters_closed hrun
    refine ⟨init_pdf_list_sorted hinit, hspine, ?_⟩
    rw [hspine, List.length_flatMap]
    exact congrArg List.sum
      (List.map_congr_left fun cd _ => chapterPageIds_length render cd)
  · exact ⟨by decide, by decide, by decide⟩

/-- C1 counterexample: in the directory listing `[1Ch2.pdf, 3.pdf]`
the name `1Ch2.pdf` parses to derived chapter number 12 while `3.pdf`
parses to 3, but sorting uses the first digit run of the raw name
(1 and 3), so the spine places chapter 12's page before chapter 3's —
not the order of the derived chapter numbers (3 before 12) the claim
prescribes. -/
theorem c1_counterexample :
    init_pdf_list "d" ["1Ch2.pdf", "3.pdf"] = some chaptersC1 ∧
    runChapters renderC1 initState chaptersC1 = Except.ok stC1 ∧
    chaptersC1.map (fun cd => cd.chapter_number) = [12, 3] ∧
    stC1.spine = [pageIdStr 12 1, pageIdStr 3 1] ∧
    stC1.spine ≠ [pageIdStr 3 1, pageIdStr 12 1] :=
  ⟨by decide, by decide, by decide, by decide, by decide⟩

/-- Witness for C1 at the two-chapter scenario book. -/
theorem c1_spine_order_witness :
    List.Sorted chapterLE chaptersW ∧
    stW.spine = chaptersW.flatMap (chapterPageIds renderW) ∧
    stW.spine.length = (chaptersW.map (numPages renderW)).sum :=
  c1_spine_order.1 renderW "b" ["Ch1.pdf", "Ch2.pdf"] chaptersW stW
    (by decide) (by decide)

/-! ### Claim C7 -/

/-- C7 (amended): a chapter-number parse failure occurs in
`EbookManager.__init__`, before the output zip is opened, so the prior
`{bookName}.epub` (or its absence) is untouched; but any failure after
the zip is opened — rasterization failure, or the zero-page navigation
failure — leaves a half-written container as the final named artifact
(the prior file was already truncated at open). -/
theorem c7_failure_artifacts (render : Renderer) (pdfs_path : String)
    (listing : List String) (prior : FileState) :
    (init_pdf_list pdfs_path listing = none →
      (create_ebook render pdfs_path listing prior).outcome = BuildOutcome.parseFail ∧
      (create_ebook render pdfs_path listing prior).file = prior)
    ∧ ((create_ebook render pdfs_path listing prior).outcome ≠ BuildOutcome.parseFail →
       (create_ebook render pdfs_path listing prior).outcome ≠ BuildOutcome.okB →
       ∃ es, (create_ebook render pdfs_path listing prior).file
          = FileState.halfWritten es) := by
  constructor
  · intro h
    rw [create_ebook_parseFail h]
    exact ⟨rfl, rfl⟩
  · intro hnotparse hnotok
    cases hinit : init_pdf_list pdfs_path listing with
    | none =>
      rw [create_ebook_parseFail hinit] at hnotparse
      exact absurd rfl hnotparse
    | some chapters =>
      cases hrun : runChapters render initState chapters with
      | error e =>
        rw [create_ebook_rasterFail hinit hrun]
        exact ⟨_, rfl⟩
      | ok st =>
        cases hncx : build_ncx_data st.toc with
        | none =>
          rw [create_ebook_navFail hinit hrun hncx]
          exact ⟨_, rfl⟩
        | some nps =>
          rw [create_ebook_ok hinit hrun hncx] at hnotok
          exact absurd rfl hnotok

/-- C7 counterexample: with a prior valid `{bookName}.epub` present, a
rasterization failure on the second chapter leaves a half-written
container (mimetype, container descriptor and chapter 1's page entries
only) as the final artifact — the prior file is destroyed, and a
half-written one remains. -/
theorem c7_counterexample :
    (create_ebook renderC7 "c" ["Ch1.pdf", "Ch2.pdf"]
        (FileState.complete [mimetypeEntry])).outcome = BuildOutcome.rasterFail ∧
    (create_ebook renderC7 "c" ["Ch1.pdf", "Ch2.pdf"]
        (FileState.complete [mimetypeEntry])).file
      = FileState.halfWritten
          [mimetypeEntry, containerEntry,
           pageXhtmlEntry "Chapter 1" 1 (pageIdStr 1 1),
           pageImageEntry (pageIdStr 1 1) 7] ∧
    (create_ebook renderC7 "c" ["Ch1.pdf", "Ch2.pdf"]
        (FileState.complete [mimetypeEntry])).file
      ≠ FileState.complete [mimetypeEntry] :=
  ⟨by decide, by decide, by decide⟩

/-- Witness for C7 (amended), parse-failure half: a digitless chapter
file name aborts before the zip is opened and the prior file survives. -/
theorem c7_failure_artifacts_witness :
    (create_ebook renderW "nope" ["x.pdf"]
        (FileState.complete [mimetypeEntry])).outcome = BuildOutcome.parseFail ∧
    (create_ebook renderW "nope" ["x.pdf"]
        (FileState.complete [mimetypeEntry])).file
      = FileState.complete [mimetypeEntry] :=
  (c7_failure_artifacts renderW "nope" ["x.pdf"]
    (FileState.complete [mimetypeEntry])).1 (by decide)

/-! ### Claim C8 -/

/-- C8 (amended): a source directory whose listing has no `.pdf` entry
(empty or otherwise) silently yields a successful build: the output is
a complete container whose package document has an empty spine and only
the fixed ncx manifest entry — no zero-chapter diagnostic or failure. -/
theorem c8_empty_listing (render : Renderer) (pdfs_path : String)
    (listing : List String) (prior : FileState)
    (h : listing.filter (fun f => pyEndsWith f ".pdf") = []) :
    create_ebook render pdfs_path listing prior
      = ⟨BuildOutcome.okB,
         FileState.complete
           [mimetypeEntry, containerEntry, opfEntry [ncxItem] [], ncxEntry []]⟩ := by
  have hinit : init_pdf_list pdfs_path listing = some [] := by
    unfold init_pdf_list
    rw [h]
    rfl
  have hrun : runChapters render initState [] = Except.ok initState := rfl
  have hncx : build_ncx_data initState.toc = some [] := rfl
  rw [create_ebook_ok hinit hrun hncx]
  rfl

/-- C8 counterexample: a directory with zero chapter files produces an
empty EPUB reported as successful (outcome ok, complete container,
empty spine in the package document). -/
theorem c8_counterexample :
    (create_ebook renderW "e" ["notes.txt"] FileState.absent).outcome
        = BuildOutcome.okB ∧
    (create_ebook renderW "e" ["notes.txt"] FileState.absent).file
      = FileState.complete
          [mimetypeEntry, containerEntry, opfEntry [ncxItem] [], ncxEntry []] :=
  ⟨by decide, by decide⟩

/-- Witness for C8 (amended) at a listing with no pdf entries. -/
theorem c8_empty_listing_witness :
    create_ebook renderW "e" ["readme.md"] FileState.absent
      = ⟨BuildOutcome.okB,
         FileState.complete
           [mimetypeEntry, containerEntry, opfEntry [ncxItem] [], ncxEntry []]⟩ :=
  c8_empty_listing renderW "e" ["readme.md"] FileState.absent (by decide)

/-! ### runBooks helper lemmas -/

theorem processBook_skip_nopath {w : World} {files : FileMap} {b : BookCfg}
    (hpath : b.path = none) :
    processBook w files b = (Sum.inl (BookOutcome.skippedNoPath b.name), files) := by
  unfold processBook
  rw [hpath]

theorem processBook_skip_missing {w : World} {files : FileMap} {b : BookCfg} {p : String}
    (hpath : b.path = some p) (hcont : w.existingPaths.contains p = false) :
    processBook w files b = (Sum.inl (BookOutcome.skippedMissing b.name), files) := by
  simp only [processBook, hpath]
  rw [if_neg]
  intro h
  rw [hcont] at h
  exact Bool.noConfusion h

theorem processBook_parse_crash {w : World} {files : FileMap} {b : BookCfg} {p : String}
    (hpath : b.path = some p) (hcont : w.existingPaths.contains p = true)
    (hinit : init_pdf_list p (w.listings p) = none) :
    processBook w files b
      = (Sum.inr ⟨b.name, BuildOutcome.parseFail⟩,
         updateFile files (b.name ++ ".epub")
           (lookupFile files (b.name ++ ".epub"))) := by
  unfold processBook
  rw [hpath]
  simp only [hcont, if_true]
  rw [create_ebook_parseFail hinit]

theorem runBooks_cons_inl {w : World} {files filesA : FileMap} {b : BookCfg}
    {o : BookOutcome} (rest : List BookCfg)
    (hpb : processBook w files b = (Sum.inl o, filesA)) :
    runBooks w files (b :: rest)
      = (o :: (runBooks w filesA rest).1,
         (runBooks w filesA rest).2.1, (runBooks w filesA rest).2.2) := by
  simp only [runBooks, hpb]

theorem runBooks_cons_inr {w : World} {files filesA : FileMap} {b : BookCfg}
    {crash : RunCrash} (rest : List BookCfg)
    (hpb : processBook w files b = (Sum.inr crash, filesA)) :
    runBooks w files (b :: rest) = ([], filesA, some crash) := by
  simp only [runBooks, hpb]

theorem runBooks_crash_stops (w : World) :
    ∀ (pre : List BookCfg) (files files2 : FileMap) (b : BookCfg)
      (post : List BookCfg) (crash : RunCrash),
      (runBooks w files pre).2.2 = none →
      processBook w (runBooks w files pre).2.1 b = (Sum.inr crash, files2) →
      runBooks w files (pre ++ b :: post)
        = ((runBooks w files pre).1, files2, some crash) := by
  intro pre
  induction pre with
  | nil =>
    intro files files2 b post crash _ hpb
    have hpb2 : processBook w files b = (Sum.inr crash, files2) := hpb
    show runBooks w files (b :: post) = _
    rw [runBooks_cons_inr post hpb2]
    rfl
  | cons a pre2 ih =>
    intro files files2 b post crash hnone hpb
    cases hpa : processBook w files a with
    | mk res filesA =>
      cases res with
      | inl o =>
        have hnone2 : (runBooks w filesA pre2).2.2 = none := by
          rw [runBooks_cons_inl pre2 hpa] at hnone
          exact hnone
        have hpb2 : processBook w (runBooks w filesA pre2).2.1 b
            = (Sum.inr crash, files2) := by
          rw [runBooks_cons_inl pre2 hpa] at hpb
          exact hpb
        show runBooks w files (a :: (pre2 ++ b :: post)) = _
        rw [runBooks_cons_inl (pre2 ++ b :: post) hpa,
          ih filesA files2 b post crash hnone2 hpb2,
          runBooks_cons_inl pre2 hpa]
      | inr crashA =>
        exfalso
        rw [runBooks_cons_inr pre2 hpa] at hnone
        exact Option.noConfusion hnone

/-! ### Claim C6 -/

/-- C6 (amended): a book whose `path` is absent or does not exist is
skipped and the run continues with the remaining books; but a fatal
per-book error — in particular a chapter file name from which no
chapter number can be parsed — escapes as an uncaught exception that
aborts the entire run: the books after it are not processed at all. -/
theorem c6_parse_error_aborts_run :
    (∀ (w : World) (files : FileMap) (b : BookCfg) (rest : List BookCfg),
        b.path = none →
        runBooks w files (b :: rest)
          = (BookOutcome.skippedNoPath b.name :: (runBooks w files rest).1,
             (runBooks w files rest).2.1, (runBooks w files rest).2.2))
    ∧ (∀ (w : World) (files : FileMap) (b : BookCfg) (p : String) (rest : List BookCfg),
        b.path = some p → w.existingPaths.contains p = false →
        runBooks w files (b :: rest)
          = (BookOutcome.skippedMissing b.name :: (runBooks w files rest).1,
             (runBooks w files rest).2.1, (runBooks w files rest).2.2))
    ∧ (∀ (w : World) (files : FileMap) (b : BookCfg) (p : String),
        b.path = some p → w.existingPaths.contains p = true →
        init_pdf_list p (w.listings p) = none →
        processBook w files b
          = (Sum.inr ⟨b.name, BuildOutcome.parseFail⟩,
             updateFile files (b.name ++ ".epub")
               (lookupFile files (b.name ++ ".epub"))))
    ∧ (∀ (w : World) (files files2 : FileMap) (pre : List BookCfg) (b : BookCfg)
          (post : List BookCfg) (crash : RunCrash),
        (runBooks w files pre).2.2 = none →
        processBook w (runBooks w files pre).2.1 b = (Sum.inr crash, files2) →
        runBooks w files (pre ++ b :: post)
          = ((runBooks w files pre).1, files2, some crash)) := by
  refine ⟨?_, ?_, ?_, ?_⟩
  · intro w files b rest hpath
    exact runBooks_cons_inl rest (processBook_skip_nopath hpath)
  · intro w files b p rest hpath hcont
    exact runBooks_cons_inl rest (processBook_skip_missing hpath hcont)
  · intro w files b p hpath hcont hinit
    exact processBook_parse_crash hpath hcont hinit
  · intro w files files2 pre b post crash hnone hpb
    exact runBooks_crash_stops w pre files files2 b post crash hnone hpb

/-- C6 counterexample: a two-book run where the first book's directory
holds the digitless chapter file `x.pdf`: the run crashes with a
parse failure at book1; book2 is never processed (no outcome, no
output file), refuting that the run continues to the next book. -/
theorem c6_counterexample :
    runBooks worldC6 [] cfgC6
      = ([], [("book1.epub", FileState.absent)],
         some ⟨"book1", BuildOutcome.parseFail⟩) ∧
    lookupFile (runBooks worldC6 [] cfgC6).2.1 "book2.epub" = FileState.absent :=
  ⟨by decide, by decide⟩

/-- Witness for C6 (amended): the crash-stops-the-run part applied to
the concrete two-book configuration. -/
theorem c6_parse_error_aborts_run_witness :
    runBooks worldC6 [] ([] ++ (⟨"book1", some "pa"⟩ : BookCfg) :: [⟨"book2", some "pb"⟩])
      = ((runBooks worldC6 [] []).1, [("book1.epub", FileState.absent)],
         some ⟨"book1", BuildOutcome.parseFail⟩) :=
  c6_parse_error_aborts_run.2.2.2 worldC6 [] [("book1.epub", FileState.absent)] []
    ⟨"book1", some "pa"⟩ [⟨"book2", some "pb"⟩] ⟨"book1", BuildOutcome.parseFail⟩
    (by decide) (by decide)

/-! ### Claim C9 -/

/-- C9: a configured book whose path key is absent, or whose path does
not exist on disk, is skipped and processing continues with the next
configured book; a falsy configuration or a missing / empty `ebooks`
section raises before any book is processed. -/
theorem c9_config_errors_and_skips :
    (∀ (w : World) (files : FileMap),
        start none w files = Except.error StartFail.cantLoadConfig)
    ∧ (∀ (w : World) (files : FileMap),
        start (some ⟨none⟩) w files = Except.error StartFail.noEbooksSection)
    ∧ (∀ (w : World) (files : FileMap),
        start (some ⟨some []⟩) w files = Except.error StartFail.noEbooksSection)
    ∧ (∀ (w : World) (files : FileMap) (b : BookCfg) (rest : List BookCfg),
        b.path = none →
        runBooks w files (b :: rest)
          = (BookOutcome.skippedNoPath b.name :: (runBooks w files rest).1,
             (runBooks w files rest).2.1, (runBooks w files rest).2.2))
    ∧ (∀ (w : World) (files : FileMap) (b : BookCfg) (p : String) (rest : List BookCfg),
        b.path = some p → w.existingPaths.contains p = false →
        runBooks w files (b :: rest)
          = (BookOutcome.skippedMissing b.name :: (runBooks w files rest).1,
             (runBooks w files rest).2.1, (runBooks w files rest).2.2)) := by
  refine ⟨fun w files => rfl, fun w files => rfl, fun w files => rfl, ?_, ?_⟩
  · intro w files b rest hpath
    exact runBooks_cons_inl rest (processBook_skip_nopath hpath)
  · intro w files b p rest hpath hcont
    exact runBooks_cons_inl rest (processBook_skip_missing hpath hcont)

/-- Witness for C9: a missing-path book is skipped and the next book
still runs (concrete two-book run). -/
theorem c9_config_errors_and_skips_witness :
    runBooks worldC6 [] ((⟨"book0", none⟩ : BookCfg) :: [⟨"book2", some "pb"⟩])
      = (BookOutcome.skippedNoPath "book0"
           :: (runBooks worldC6 [] [⟨"book2", some "pb"⟩]).1,
         (runBooks worldC6 [] [⟨"book2", some "pb"⟩]).2.1,
         (runBooks worldC6 [] [⟨"book2", some "pb"⟩]).2.2) :=
  c9_config_errors_and_skips.2.2.2.1 worldC6 [] ⟨"book0", none⟩
    [⟨"book2", some "pb"⟩] (by decide)
